import Mathlib

/-!
Verification of the concurrent request orchestration layer of the
`linkedin` repository: the sliding-window `RateLimiter` and the
`ConcurrentRequestHandler` from `src/concurrent_handler.py`, and the
`CacheManager` from `src/cache_manager.py`.

Embedding conventions:
* Wall-clock time (`time.time()`) is modelled as a rational number that is
  passed explicitly to each operation (`now`); the elapsed duration measured
  at the end of a task body (`time.time() - start_time` in the `finally`
  block) is passed as `dur`.
* Python lists of floats become `List ℚ`; mutating methods become functions
  from state to (return value, new state).
* Fallible code returns `Option`: Python's `min([])` raising `ValueError`
  is modelled by a `none` result.
* The thread pool is modelled as a sequential deterministic executor: a
  submitted task runs at submission, and `as_completed` enumerates futures
  in submission order.  Every property proved below is about this
  deterministic execution, which is a possible schedule of the real pool.
-/

namespace Linkedin

/-- The `RateLimiter` of `src/concurrent_handler.py` (lines 38-82):
`max_requests`, `window_seconds` and the list `requests` of recorded
timestamps. -/
structure RateLimiter where
  max_requests : ℕ
  window_seconds : ℚ
  requests : List ℚ
deriving Repr, DecidableEq

namespace RateLimiter

/-- `RateLimiter.can_make_request` (lines 47-56): prune timestamps that are
not strictly inside the trailing window (`req_time > now - window_seconds`
is kept), then compare the remaining count with `max_requests`.  Returns the
boolean together with the mutated state. -/
def can_make_request (now : ℚ) (rl : RateLimiter) : Bool × RateLimiter :=
  let reqs := rl.requests.filter (fun t => now - rl.window_seconds < t)
  (decide (reqs.length < rl.max_requests), { rl with requests := reqs })

/-- `RateLimiter.add_request` (lines 58-61): append `time.time()`. -/
def add_request (now : ℚ) (rl : RateLimiter) : RateLimiter :=
  { rl with requests := rl.requests ++ [now] }

/-- `RateLimiter.wait_time_until_next_request` (lines 63-82).  The early
return compares the unpruned count; otherwise the list is pruned and, if
still at capacity, the wait is `oldest + window - now` floored at `0`.
`min(self.requests)` on an empty list raises `ValueError` in Python, which is
modelled by the `none` result (reachable only when `max_requests = 0`). -/
def wait_time_until_next_request (now : ℚ) (rl : RateLimiter) :
    Option ℚ × RateLimiter :=
  if rl.requests.length < rl.max_requests then
    (some 0, rl)
  else
    let reqs := rl.requests.filter (fun t => now - rl.window_seconds < t)
    let rl' := { rl with requests := reqs }
    if reqs.length < rl.max_requests then
      (some 0, rl')
    else
      match reqs.min? with
      | some oldest => (some (max 0 (oldest + rl.window_seconds - now)), rl')
      | none => (none, rl')

/-- The specification's description of `timeUntilAdmit` (spec §4.2): prune,
then `0` if below capacity, otherwise `oldestTimestamp + windowSeconds - now`
floored at `0`.  Stated over the pruned list directly, to be compared with
the implementation above. -/
def timeUntilAdmitSpec (now : ℚ) (rl : RateLimiter) : ℚ :=
  let pruned := rl.requests.filter (fun t => now - rl.window_seconds < t)
  if pruned.length < rl.max_requests then 0
  else max 0 (pruned.min?.getD 0 + rl.window_seconds - now)

end RateLimiter

/-- A rate limiter with `max_requests = 3`, `window_seconds = 10` and no
recorded requests, as in the spec's sliding-window test scenario. -/
def rlFresh : RateLimiter := ⟨3, 10, []⟩

/-- `rlFresh` after three `add_request` calls at `t = 0`. -/
def rlAfterThree : RateLimiter :=
  ((rlFresh.add_request 0).add_request 0).add_request 0

/-- One entry of the `CacheManager`'s store.  The Python code keeps a
`cachetools.TTLCache` mapping `md5(json({url}))` to `(data, timestamp)`;
keys are modelled by the URL itself (the md5 key derivation is deterministic
and injective on the URL up to hash collisions, which are not modelled).
`storedAt` is the timestamp recorded by `CacheManager.set` which is also the
insertion time used by the TTL bookkeeping. -/
structure CacheEntry (α : Type) where
  key : String
  data : α
  storedAt : ℚ
deriving Repr, DecidableEq

/-- The `self.stats` dictionary of `CacheManager` (lines 23-29). -/
structure CacheStats where
  hits : ℕ
  misses : ℕ
  total_requests : ℕ
  cache_size : ℕ
  evictions : ℕ
deriving Repr, DecidableEq

/-- The initial statistics dictionary of a fresh `CacheManager`. -/
def zeroCacheStats : CacheStats := ⟨0, 0, 0, 0, 0⟩

/-- The `CacheManager` of `src/cache_manager.py`.  The entry list is kept in
use-recency order with the least recently used entry first.

Modelled from the spec: the third-party `cachetools.TTLCache` backing store
is not part of the repository sources, so its behaviour is taken from the
spec's cache section — an entry is treated as absent as soon as
`now - storedAt >= ttl` even before physical removal; reading an entry
refreshes its use-recency; inserting a new key at capacity evicts the least
recently used live entry; physical removal of expired entries happens on
each store operation. -/
structure CacheManager (α : Type) where
  entries : List (CacheEntry α)
  max_size : ℕ
  ttl : ℚ
  stats : CacheStats
deriving Repr, DecidableEq

namespace CacheManager

variable {α : Type}

/-- TTL liveness: a stored entry is live at `now` iff `now - storedAt < ttl`,
i.e. `now < storedAt + ttl`. -/
def live (ttl now : ℚ) (e : CacheEntry α) : Bool :=
  decide (now < e.storedAt + ttl)

/-- `CacheManager.get` (lines 43-64): one `get` call.  Increments
`total_requests`, then either returns the `(data, timestamp)` pair of a live
entry (counting a hit and refreshing the entry's use-recency) or returns
`none` (counting a miss) when the key is absent or its entry has expired. -/
def get (cm : CacheManager α) (now : ℚ) (url : String) :
    Option (α × ℚ) × CacheManager α :=
  let stats1 := { cm.stats with total_requests := cm.stats.total_requests + 1 }
  match cm.entries.find? (fun e => e.key == url) with
  | some e =>
      if now < e.storedAt + cm.ttl then
        (some (e.data, e.storedAt),
         { cm with
            entries := cm.entries.filter (fun x => x.key != url) ++ [e],
            stats := { stats1 with hits := stats1.hits + 1 } })
      else
        (none, { cm with stats := { stats1 with misses := stats1.misses + 1 } })
  | none => (none, { cm with stats := { stats1 with misses := stats1.misses + 1 } })

/-- `CacheManager.set` (lines 66-81).  `was_full` compares the current live
size against `maxsize`; the store first drops expired entries, then inserts
or replaces the key (a replaced or inserted key becomes the most recently
used, stamped `now`), evicting least recently used live entries while over
capacity.  The eviction counter is incremented only when `was_full` holds
and the key is NOT in the cache after the store — which cannot happen for a
key that was just stored (with a positive `ttl`), so the counter never moves.
(`max_size = 0` would raise `ValueError` in cachetools; it is not modelled.) -/
def set (cm : CacheManager α) (now : ℚ) (url : String) (v : α) :
    CacheManager α :=
  let live0 := cm.entries.filter (live cm.ttl now)
  let was_full := cm.max_size ≤ live0.length
  let inserted :=
    if live0.any (fun e => e.key == url) then
      live0.filter (fun e => e.key != url) ++ [⟨url, v, now⟩]
    else
      (if cm.max_size ≤ live0.length
        then live0.drop (live0.length + 1 - cm.max_size)
        else live0) ++ [⟨url, v, now⟩]
  let contains_after := inserted.any (fun e => e.key == url && live cm.ttl now e)
  let evictions1 :=
    if was_full && !contains_after then cm.stats.evictions + 1
    else cm.stats.evictions
  { cm with
      entries := inserted,
      stats := { cm.stats with
        evictions := evictions1,
        cache_size := (inserted.filter (live cm.ttl now)).length } }

/-- The numeric value of the `hit_rate` reported by `CacheManager.get_stats`
(line 108): `hits / total_requests * 100` when any request was counted, `0`
otherwise.  The Python code formats this number as the string
`f"<rate>%"` with two decimals; the string formatting is not modelled. -/
def hit_rate_percent (cm : CacheManager α) : ℚ :=
  if 0 < cm.stats.total_requests then
    (cm.stats.hits : ℚ) / (cm.stats.total_requests : ℚ) * 100
  else 0

/-- `CacheManager.get_stats` (lines 104-115): the counters with `cache_size`
refreshed to the current live size, paired with the `hit_rate` value. -/
def get_stats (cm : CacheManager α) (now : ℚ) : CacheStats × ℚ :=
  ({ cm.stats with
      cache_size := (cm.entries.filter (live cm.ttl now)).length },
   cm.hit_rate_percent)

/-- Whether `key` is present and unexpired at `now` (the condition under
which a `get` counts a hit). -/
def present (cm : CacheManager α) (now : ℚ) (k : String) : Bool :=
  cm.entries.any (fun e => e.key == k && live cm.ttl now e)

/-- A sequence of `get` calls at a fixed instant, keeping only the state. -/
def runGets (cm : CacheManager α) (now : ℚ) (keys : List String) :
    CacheManager α :=
  keys.foldl (fun c k => (c.get now k).2) cm

end CacheManager

/-- The dictionary returned by the Fetcher (`scraper.fetch_content`), as far
as the handler inspects it: the `success` flag and the optional `error`
message (`result.get("success")`, `result.get("error")`). -/
structure FetchResult where
  success : Bool
  error : Option String := none
deriving Repr, DecidableEq

/-- Outcome of one `scraper.fetch_content` call: a returned dictionary, or a
raised exception carrying its message. -/
inductive FetchOutcome where
  | ok : FetchResult → FetchOutcome
  | exn : String → FetchOutcome
deriving Repr, DecidableEq

/-- A fetch outcome that the spec counts as a failure: a returned dictionary
without `success`, or a raised exception. -/
def fetchFails : FetchOutcome → Bool
  | .ok r => !r.success
  | .exn _ => true

/-- The `error` field of the `RequestResult` built for a fetch outcome:
`result.get("error")` for an unsuccessful dictionary, `str(e)` for a raised
exception, `None` on success. -/
def errOf : FetchOutcome → Option String
  | .ok r => if r.success then none else r.error
  | .exn m => some m

/-- `RequestTask` (lines 14-22).  `created_at` and `callback` are never read
by the handler and are omitted. -/
structure RequestTask where
  url : String
  bypass_cache : Bool := false
  priority : ℤ := 0
  task_id : Option String := none
deriving Repr, DecidableEq

/-- `RequestResult` (lines 25-35). -/
structure RequestResult where
  url : String
  success : Bool
  data : Option FetchResult := none
  error : Option String := none
  cached : Bool := false
  cache_age_seconds : Option ℚ := none
  processing_time : ℚ := 0
  task_id : Option String := none
deriving Repr, DecidableEq

/-- The handler's `self.stats` dictionary (lines 116-123).  `active_workers`
is a live view of the executor's thread list and is not modelled. -/
structure HandlerStats where
  total_requests : ℕ
  successful_requests : ℕ
  failed_requests : ℕ
  cache_hits : ℕ
  avg_processing_time : ℚ
deriving Repr, DecidableEq

/-- The statistics dictionary of a freshly constructed handler. -/
def freshStats : HandlerStats := ⟨0, 0, 0, 0, 0⟩

/-- The mutable state of a `ConcurrentRequestHandler` (lines 88-129):
the owned cache (storing Fetcher result dictionaries), the rate limiter, the
pool/queue configuration, the `request_queue` contents (a `Queue` bounded by
`max_queue_size`, created in `__init__`), and the statistics.  `fetch_log`
records the URLs passed to `scraper.fetch_content`, in call order — it is
the observation used to state "the Fetcher is (not) invoked". -/
structure HandlerState where
  cache : CacheManager FetchResult
  rate_limiter : RateLimiter
  max_workers : ℕ
  max_queue_size : ℕ
  request_queue : List RequestTask
  stats : HandlerStats
  fetch_log : List String
deriving Repr, DecidableEq

/-- The statistics update performed in the `finally` block of
`_process_single_request` (lines 193-208): increment `total_requests`,
increment exactly one of `successful_requests`/`failed_requests` according
to the result's `success`, and fold the measured duration into the running
average as `(avg * (total - 1) + duration) / total` with `total` already
incremented. -/
def updateStats (success : Bool) (dur : ℚ) (s : HandlerStats) : HandlerStats :=
  let total := s.total_requests + 1
  { s with
    total_requests := total,
    successful_requests :=
      if success then s.successful_requests + 1 else s.successful_requests,
    failed_requests :=
      if success then s.failed_requests else s.failed_requests + 1,
    avg_processing_time :=
      (s.avg_processing_time * ((total : ℚ) - 1) + dur) / (total : ℚ) }

/-- `ConcurrentRequestHandler._process_single_request` (lines 131-208),
parameterised by the Fetcher `fetch` (called as
`scraper.fetch_content(url, bypass_cache)`), the clock reading `now` at task
start and the duration `dur` measured in the `finally` block.

Control flow of the Python body:
1. unless `bypass_cache`, query the cache; on a hit count a handler cache
   hit and return a successful cached result — the rate limiter and the
   Fetcher are not touched;
2. otherwise compute the rate-limit wait (sleeping does not advance the
   model clock), record the request, call the Fetcher;
3. a successful fetch is stored in the cache; a dictionary without `success`
   or a raised exception becomes a failed result (the `except` branch);
4. the `finally` block updates the statistics on every path.
A `ValueError` escaping `wait_time_until_next_request` (possible only for
`max_requests = 0`) is caught by the same `except` branch. -/
def processSingle (fetch : String → Bool → FetchOutcome) (now dur : ℚ)
    (task : RequestTask) (st : HandlerState) : RequestResult × HandlerState :=
  let cacheLookup :=
    if task.bypass_cache then (none, st.cache) else st.cache.get now task.url
  match cacheLookup with
  | (some (d, ts), cache1) =>
      let res : RequestResult :=
        { url := task.url, success := true, data := some d, error := none,
          cached := true, cache_age_seconds := some (now - ts),
          processing_time := dur, task_id := task.task_id }
      (res, { st with
        cache := cache1,
        stats := updateStats true dur
          { st.stats with cache_hits := st.stats.cache_hits + 1 } })
  | (none, cache1) =>
      match st.rate_limiter.wait_time_until_next_request now with
      | (none, rl1) =>
          let res : RequestResult :=
            { url := task.url, success := false, data := none,
              error := some "min() arg is an empty sequence",
              cached := false, cache_age_seconds := none,
              processing_time := dur, task_id := task.task_id }
          (res, { st with
            cache := cache1,
            rate_limiter := rl1,
            stats := updateStats false dur st.stats })
      | (some _, rl1) =>
          let rl2 := rl1.add_request now
          match fetch task.url task.bypass_cache with
          | .ok r =>
              let cache2 :=
                if r.success then cache1.set now task.url r else cache1
              let res : RequestResult :=
                { url := task.url, success := r.success,
                  data := if r.success then some r else none,
                  error := if r.success then none else r.error,
                  cached := false, cache_age_seconds := none,
                  processing_time := dur, task_id := task.task_id }
              (res, { st with
                cache := cache2,
                rate_limiter := rl2,
                fetch_log := st.fetch_log ++ [task.url],
                stats := updateStats r.success dur st.stats })
          | .exn m =>
              let res : RequestResult :=
                { url := task.url, success := false, data := none,
                  error := some m, cached := false, cache_age_seconds := none,
                  processing_time := dur, task_id := task.task_id }
              (res, { st with
                cache := cache1,
                rate_limiter := rl2,
                fetch_log := st.fetch_log ++ [task.url],
                stats := updateStats false dur st.stats })

/-- One unit of work in a batch: the URL plus the ambient clock readings of
its task (start instant and measured duration). -/
structure BatchJob where
  url : String
  now : ℚ
  dur : ℚ
deriving Repr, DecidableEq

/-- The `RequestTask` built per URL inside `process_batch` (lines 233-239);
the generated `task_id` string is modelled as `none`. -/
def batchTask (b : Bool) (j : BatchJob) : RequestTask :=
  { url := j.url, bypass_cache := b, priority := 0, task_id := none }

/-- The `RequestTask` built inside `process_stream`'s `submit_task`
(line 314): defaults apply, in particular `bypass_cache = false`. -/
def streamTask (u : String) : RequestTask := { url := u }

/-- `ConcurrentRequestHandler.process_batch` with `return_partial = true`
(lines 210-260): one task per URL is submitted to the executor and the
futures are awaited in submission order, appending one result per URL.  The
executor is modelled sequentially, so `future.result()` returns the task's
result; exceptions raised inside the task body have already been converted
to failed results by `_process_single_request`'s `except` branch (the
per-future 30 s wall-clock timeout is not modelled). -/
def processBatch (fetch : String → Bool → FetchOutcome) (bypass : Bool) :
    List BatchJob → HandlerState → List RequestResult × HandlerState
  | [], st => ([], st)
  | j :: rest, st =>
      let p := processSingle fetch j.now j.dur (batchTask bypass j) st
      let q := processBatch fetch bypass rest p.2
      (p.1 :: q.1, q.2)

/-- The result-collection loop of `ConcurrentRequestHandler.process_stream`
(lines 328-353): `pending` are the results of submitted but not yet yielded
tasks in completion order (completion order equals submission order in the
sequential executor model), `rest` the URLs not yet drawn from the source.
Each completed result is yielded; if it failed and `stop_on_error` is set
the generator returns at once; otherwise the next URL, if any, is submitted
(stream tasks carry `bypass_cache = false`). -/
def streamLoop (fetch : String → Bool → FetchOutcome) (now dur : ℚ)
    (stop : Bool) :
    List RequestResult → List String → HandlerState →
    List RequestResult × HandlerState
  | [], _, st => ([], st)
  | r :: pending, rest, st =>
      if !r.success && stop then ([r], st)
      else
        match rest with
        | [] =>
            let q := streamLoop fetch now dur stop pending [] st
            (r :: q.1, q.2)
        | u :: rest' =>
            let p := processSingle fetch now dur (streamTask u) st
            let q := streamLoop fetch now dur stop (pending ++ [p.1]) rest' p.2
            (r :: q.1, q.2)
termination_by pending rest _ => pending.length + rest.length
decreasing_by
  all_goals (simp only [List.length_append, List.length_cons,
    List.length_nil]; omega)

/-- `ConcurrentRequestHandler.process_stream` (lines 291-353) over a finite
URL source.  The initial submission loop
`for i, url in enumerate(url_generator)` submits the first `maxConcurrent`
URLs; when it breaks it has already drawn the element at index
`maxConcurrent` from the generator without submitting it, so that URL is
silently dropped and the collection loop continues from index
`maxConcurrent + 1`.  Returns the list of yielded results and the final
state. -/
def processStream (fetch : String → Bool → FetchOutcome) (now dur : ℚ)
    (maxConcurrent : ℕ) (stop : Bool) (urls : List String)
    (st : HandlerState) : List RequestResult × HandlerState :=
  let init := processBatch fetch false
    ((urls.take maxConcurrent).map (fun u => ⟨u, now, dur⟩)) st
  streamLoop fetch now dur stop init.1 (urls.drop (maxConcurrent + 1)) init.2

/-! Concrete states and Fetchers used to instantiate the theorems below. -/

/-- A Fetcher that always returns a successful dictionary. -/
def fetchOk : String → Bool → FetchOutcome := fun _ _ => .ok { success := true }

/-- A Fetcher that returns an unsuccessful dictionary exactly for URL `"b"`. -/
def fetchFailB : String → Bool → FetchOutcome := fun u _ =>
  if u == "b" then .ok { success := false, error := some "profile not found" }
  else .ok { success := true }

/-- A Fetcher that raises exactly for URL `"u2"`. -/
def fetchFailSecond : String → Bool → FetchOutcome := fun u _ =>
  if u == "u2" then .exn "connection reset" else .ok { success := true }

/-- A successful Fetcher dictionary with no error message. -/
def okResult : FetchResult := { success := true }

/-- A freshly constructed handler with the default configuration of
`ConcurrentRequestHandler.__init__` (5 workers, queue bound 100, rate limit
30 per 60 s) owning a fresh default cache (size 1000, ttl 1800 s). -/
def freshHandler : HandlerState :=
  { cache := { entries := [], max_size := 1000, ttl := 1800,
               stats := zeroCacheStats },
    rate_limiter := ⟨30, 60, []⟩,
    max_workers := 5, max_queue_size := 100, request_queue := [],
    stats := freshStats, fetch_log := [] }

/-- A cache holding a result for URL `"u"` stored at `t = 0`. -/
def cacheWithU : CacheManager FetchResult :=
  { entries := [⟨"u", okResult, 0⟩], max_size := 1000, ttl := 1800,
    stats := zeroCacheStats }

/-- `cacheWithU` after the hit performed by a `get` at `t = 5`. -/
def cacheWithUAfter : CacheManager FetchResult :=
  { entries := [⟨"u", okResult, 0⟩], max_size := 1000, ttl := 1800,
    stats := ⟨1, 0, 1, 0, 0⟩ }

/-- A handler whose cache already holds URL `"u"`. -/
def stateWithU : HandlerState := { freshHandler with cache := cacheWithU }

/-- The task for URL `"u"` without cache bypass. -/
def taskU : RequestTask := { url := "u" }

/-- A cache of naturals holding key `"e"` stored at `t = 0` with ttl 2
(the spec's TTL example: `ttl=2s`, set at `t=0`). -/
def cacheTtlTwo : CacheManager ℕ :=
  { entries := [⟨"e", 7, 0⟩], max_size := 1000, ttl := 2,
    stats := zeroCacheStats }

/-- Batch of three URLs of which exactly `"b"` fails under `fetchFailB`;
all tasks start at `t = 0` and take one second. -/
def threeJobs : List BatchJob := [⟨"a", 0, 1⟩, ⟨"b", 0, 1⟩, ⟨"c", 0, 1⟩]

/-- A handler configured with one worker and `max_queue_size = 1`, so that a
batch of three URLs exceeds pool-plus-queue capacity. -/
def tinyQueueHandler : HandlerState :=
  { freshHandler with max_workers := 1, max_queue_size := 1 }

/-- An empty cache of naturals with capacity 2 (so a third distinct key
must evict). -/
def capTwoCache : CacheManager ℕ :=
  { entries := [], max_size := 2, ttl := 100, stats := zeroCacheStats }

/-- `capTwoCache` after storing three distinct keys at `t = 0, 1, 2`:
`maxSize + 1` inserts, forcing one eviction. -/
def capTwoCacheFull : CacheManager ℕ :=
  ((capTwoCache.set 0 "a" 1).set 1 "b" 2).set 2 "c" 3

/-- A cache of naturals holding key `"p"` (stored at `t = 0`, ttl 100). -/
def cacheWithP : CacheManager ℕ :=
  { entries := [⟨"p", 7, 0⟩], max_size := 10, ttl := 100,
    stats := zeroCacheStats }

/-- `cacheWithP` after one hit (`get "p"`) and one miss (`get "q"`) at
`t = 1`. -/
def cacheWithPAfter : CacheManager ℕ :=
  ((cacheWithP.get 1 "p").2.get 1 "q").2

/-- The five stream URLs of the spec's early-stop scenario. -/
def fiveUrls : List String := ["u1", "u2", "u3", "u4", "u5"]

/-- `process_stream` over `fiveUrls` with the default
`max_concurrent = max_workers = 5`, `stop_on_error = true`, and the second
URL failing. -/
def fiveUrlRun : List RequestResult × HandlerState :=
  processStream fetchFailSecond 0 1 5 true fiveUrls freshHandler

/-- Two jobs with durations 1 and 3 (arithmetic mean 2). -/
def twoJobs : List BatchJob := [⟨"x", 0, 1⟩, ⟨"y", 0, 3⟩]

/-! Helper lemmas shared by the claim theorems. -/

theorem filter_length_le {α : Type} (p : α → Bool) (l : List α) :
    (l.filter p).length ≤ l.length :=
  List.length_filter_le p l

theorem min?_isSome_of_ne_nil (l : List ℚ) (h : l ≠ []) :
    l.min?.isSome := by
  cases l with
  | nil => exact absurd rfl h
  | cons a t => simp [List.min?]

/-! ### C2 — rate limiter sliding window -/

/-- **C2.**  The rate limiter implements the sliding window as specified:
`can_make_request` removes exactly the timestamps `t` with
`t ≤ now - window_seconds` and returns `true` iff the remaining count is
below `max_requests`; for a positive `max_requests`,
`wait_time_until_next_request` returns the spec's value (`0` when admission
is possible, otherwise `oldest + window - now` floored at `0`).  In the
concrete scenario of three requests recorded at `t = 0` with window `10` and
limit `3`, admission is refused for all `0 ≤ t < 10`, granted from `t = 10`
on, and the wait time at `t = 1` is `9`. -/
theorem rate_limiter_sliding_window :
    (∀ (rl : RateLimiter) (now : ℚ),
      (rl.can_make_request now).2.requests
          = rl.requests.filter (fun t => !decide (t ≤ now - rl.window_seconds)) ∧
      ((rl.can_make_request now).1 = true ↔
          (rl.requests.filter (fun t => now - rl.window_seconds < t)).length
            < rl.max_requests)) ∧
    (∀ (rl : RateLimiter) (now : ℚ), 0 < rl.max_requests →
      (rl.wait_time_until_next_request now).1
          = some (RateLimiter.timeUntilAdmitSpec now rl)) ∧
    ((∀ t : ℚ, 0 ≤ t → t < 10 → (rlAfterThree.can_make_request t).1 = false) ∧
     (∀ t : ℚ, 10 ≤ t → (rlAfterThree.can_make_request t).1 = true) ∧
     (rlAfterThree.wait_time_until_next_request 1).1 = some 9) := by
  refine ⟨?_, ?_, ?_, ?_, ?_⟩
  · intro rl now
    constructor
    · show rl.requests.filter _ = rl.requests.filter _
      apply List.filter_congr
      intro t _
      by_cases h : now - rl.window_seconds < t
      · simp [h, not_le.mpr h]
      · simp [h, not_lt.mp h]
    · simp [RateLimiter.can_make_request]
  · intro rl now hmax
    unfold RateLimiter.wait_time_until_next_request RateLimiter.timeUntilAdmitSpec
    by_cases h1 : rl.requests.length < rl.max_requests
    · have h2 : (rl.requests.filter
          (fun t => now - rl.window_seconds < t)).length < rl.max_requests :=
        lt_of_le_of_lt (filter_length_le _ _) h1
      simp [h1, h2]
    · simp only [h1, if_false]
      by_cases h2 : (rl.requests.filter
          (fun t => now - rl.window_seconds < t)).length < rl.max_requests
      · simp [h2]
      · have hne : rl.requests.filter (fun t => now - rl.window_seconds < t) ≠ [] := by
          intro hnil
          rw [hnil] at h2
          simp at h2
          omega
        have hsome := min?_isSome_of_ne_nil _ hne
        simp only [h2, if_false]
        cases hmin : (rl.requests.filter
            (fun t => now - rl.window_seconds < t)).min? with
        | none => rw [hmin] at hsome; simp at hsome
        | some oldest => simp [hmin]
  · intro t h0 h10
    have hk : t - 10 < (0 : ℚ) := by linarith
    simp [rlAfterThree, rlFresh, RateLimiter.can_make_request,
      RateLimiter.add_request, List.filter, hk]
  · intro t h10
    have hk : ¬ (t - 10 < (0 : ℚ)) := by linarith
    simp [rlAfterThree, rlFresh, RateLimiter.can_make_request,
      RateLimiter.add_request, List.filter, hk]
  · norm_num [rlAfterThree, rlFresh, RateLimiter.wait_time_until_next_request,
      RateLimiter.add_request, List.filter, List.min?]

/-- Witness for C2: the refinement clause applied to the concrete state
`rlAfterThree` at `t = 1`, its hypothesis `0 < max_requests` discharged by
computation. -/
theorem rate_limiter_sliding_window_witness :
    0 < rlAfterThree.max_requests ∧
    (rlAfterThree.wait_time_until_next_request 1).1
        = some (RateLimiter.timeUntilAdmitSpec 1 rlAfterThree) :=
  ⟨by decide, rate_limiter_sliding_window.2.1 rlAfterThree 1 (by decide)⟩

/-! ### C1 — cache hit short circuit -/

/-- **C1.**  When `bypass_cache` is false and the cache holds a live entry
for the task's URL, `_process_single_request` returns a successful cached
result carrying the cached data, and leaves both the rate limiter's
timestamp sequence and the fetch log untouched: the Fetcher is not invoked
and `add_request` is not called. -/
theorem cache_hit_short_circuit (fetch : String → Bool → FetchOutcome)
    (now dur : ℚ) (task : RequestTask) (st : HandlerState)
    (d : FetchResult) (ts : ℚ) (c1 : CacheManager FetchResult)
    (hb : task.bypass_cache = false)
    (hhit : st.cache.get now task.url = (some (d, ts), c1)) :
    (processSingle fetch now dur task st).1.success = true ∧
    (processSingle fetch now dur task st).1.cached = true ∧
    (processSingle fetch now dur task st).1.data = some d ∧
    (processSingle fetch now dur task st).1.cache_age_seconds = some (now - ts) ∧
    (processSingle fetch now dur task st).2.rate_limiter = st.rate_limiter ∧
    (processSingle fetch now dur task st).2.fetch_log = st.fetch_log := by
  simp [processSingle, hb, hhit]

/-- Witness for C1: the theorem applied to a handler whose cache holds URL
`"u"`, under a Fetcher that would succeed if it were (wrongly) invoked. -/
theorem cache_hit_short_circuit_witness :
    (taskU.bypass_cache = false ∧
      stateWithU.cache.get 0 taskU.url = (some (okResult, 0), cacheWithUAfter)) ∧
    ((processSingle fetchOk 0 1 taskU stateWithU).1.success = true ∧
     (processSingle fetchOk 0 1 taskU stateWithU).1.cached = true ∧
     (processSingle fetchOk 0 1 taskU stateWithU).1.data = some okResult ∧
     (processSingle fetchOk 0 1 taskU stateWithU).1.cache_age_seconds
         = some ((0 : ℚ) - 0) ∧
     (processSingle fetchOk 0 1 taskU stateWithU).2.rate_limiter
         = stateWithU.rate_limiter ∧
     (processSingle fetchOk 0 1 taskU stateWithU).2.fetch_log
         = stateWithU.fetch_log) :=
  ⟨⟨rfl, by simp [CacheManager.get, stateWithU, cacheWithU, cacheWithUAfter,
      taskU, freshHandler, zeroCacheStats]⟩,
   cache_hit_short_circuit fetchOk 0 1 taskU stateWithU okResult 0
     cacheWithUAfter rfl
     (by simp [CacheManager.get, stateWithU, cacheWithU, cacheWithUAfter,
        taskU, freshHandler, zeroCacheStats])⟩

/-! ### C3 — TTL expiry on read -/

/-- **C3.**  A `get` performed at a time `now` with `now - storedAt ≥ ttl`
returns `none` for that key, even though the entry is still physically in
the store: expiry is enforced at read time. -/
theorem cache_ttl_expired_absent {α : Type} (cm : CacheManager α)
    (url : String) (now : ℚ) (e : CacheEntry α)
    (hfind : cm.entries.find? (fun x => x.key == url) = some e)
    (hexp : cm.ttl ≤ now - e.storedAt) :
    (cm.get now url).1 = none := by
  have hcond : ¬ (now < e.storedAt + cm.ttl) := by linarith
  simp [CacheManager.get, hfind, hcond]

/-- Witness for C3: the spec's own example — an entry stored at `t = 0` with
`ttl = 2` is already absent at `t = 2` (`now - storedAt = ttl`), with no
clear or eviction in between. -/
theorem cache_ttl_expired_absent_witness :
    (cacheTtlTwo.entries.find? (fun x => x.key == "e")
        = some ⟨"e", 7, 0⟩ ∧
     cacheTtlTwo.ttl ≤ 2 - (CacheEntry.storedAt ⟨"e", 7, 0⟩)) ∧
    (cacheTtlTwo.get 2 "e").1 = none :=
  ⟨⟨by simp [cacheTtlTwo], by simp [cacheTtlTwo]⟩,
   cache_ttl_expired_absent cacheTtlTwo "e" 2 ⟨"e", 7, 0⟩
     (by simp [cacheTtlTwo]) (by simp [cacheTtlTwo])⟩

/-! ### C6 — capacity eviction and the evictions counter -/

/-- **C6.**  `CacheManager.set` checks `cache_key not in self.cache` only
AFTER storing the key, so the eviction counter can never be incremented
(first clause, for any store into a cache with a positive ttl).  In the
concrete scenario — capacity 2, three distinct keys inserted — one entry is
really evicted (`"a"` is gone, only 2 entries remain) yet `get_stats` still
reports `evictions = 0`, where the spec requires `evictions == 1`. -/
theorem eviction_counter_never_increments :
    (∀ {α : Type} (cm : CacheManager α) (now : ℚ) (url : String) (v : α),
      0 < cm.ttl → (cm.set now url v).stats.evictions = cm.stats.evictions) ∧
    ((capTwoCacheFull.get_stats 2).1.evictions = 0 ∧
     (capTwoCacheFull.get_stats 2).1.cache_size = 2 ∧
     (capTwoCacheFull.get 2 "a").1 = none ∧
     (capTwoCacheFull.get 2 "b").1 = some (2, 1) ∧
     (capTwoCacheFull.get 2 "c").1 = some (3, 2)) := by
  constructor
  · intro α cm now url v httl
    have hlive : CacheManager.live cm.ttl now ⟨url, v, now⟩ = true := by
      simp only [CacheManager.live, decide_eq_true_eq]
      linarith
    simp only [CacheManager.set]
    split <;> simp [List.any_append, hlive]
  · have eba : ("b" == "a") = false := by decide
    have eca : ("c" == "a") = false := by decide
    have eab : ("a" == "b") = false := by decide
    have ecb : ("c" == "b") = false := by decide
    have eac : ("a" == "c") = false := by decide
    have ebc : ("b" == "c") = false := by decide
    have pac : ¬ (("a" : String) = "c") := by decide
    have pbc : ¬ (("b" : String) = "c") := by decide
    have pab : ¬ (("a" : String) = "b") := by decide
    refine ⟨?_, ?_, ?_, ?_, ?_⟩ <;>
      norm_num [capTwoCacheFull, capTwoCache, CacheManager.set,
        CacheManager.get, CacheManager.get_stats, CacheManager.live,
        zeroCacheStats, List.filter, List.find?, List.any, List.drop, bne,
        eba, eca, eab, ecb, eac, ebc, pac, pbc, pab]

/-- Witness for C6: the dead-counter clause applied to the first concrete
insert (capacity-2 cache, key `"a"`). -/
theorem eviction_counter_never_increments_witness :
    0 < capTwoCache.ttl ∧
    ((capTwoCache.set 0 "a" 1).stats.evictions = capTwoCache.stats.evictions) :=
  ⟨by decide,
   eviction_counter_never_increments.1 capTwoCache 0 "a" 1 (by decide)⟩

/-! ### C7 — hit/miss counting and the hit rate -/

/-- Effect of one `get` on the cache statistics: `total_requests` always
increments, and exactly one of `hits`/`misses` increments — `hits` exactly
when the `get` returned data. -/
theorem get_stats_step {α : Type} (cm : CacheManager α) (now : ℚ)
    (k : String) :
    ((cm.get now k).2).stats.total_requests = cm.stats.total_requests + 1 ∧
    (((cm.get now k).1.isSome = true ∧
        ((cm.get now k).2).stats.hits = cm.stats.hits + 1 ∧
        ((cm.get now k).2).stats.misses = cm.stats.misses) ∨
     ((cm.get now k).1 = none ∧
        ((cm.get now k).2).stats.hits = cm.stats.hits ∧
        ((cm.get now k).2).stats.misses = cm.stats.misses + 1)) := by
  cases hfe : cm.entries.find? (fun e => e.key == k) with
  | none => simp [CacheManager.get, hfe]
  | some e =>
      by_cases hlv : now < e.storedAt + cm.ttl
      · simp [CacheManager.get, hfe, hlv]
      · simp [CacheManager.get, hfe, hlv]

theorem pairwise_key_unique {α : Type} :
    ∀ (l : List (CacheEntry α)),
      l.Pairwise (fun a b => a.key ≠ b.key) →
      ∀ x ∈ l, ∀ y ∈ l, x.key = y.key → x = y := by
  intro l hl
  induction hl with
  | nil => intro x hx; simp at hx
  | cons hhead _ ih =>
      intro x hx y hy hk
      rcases List.mem_cons.mp hx with hx1 | hx2 <;>
        rcases List.mem_cons.mp hy with hy1 | hy2
      · rw [hx1, hy1]
      · exact absurd (hx1 ▸ hk) (hhead y hy2)
      · exact absurd (hy1 ▸ hk.symm) (hhead x hx2)
      · exact ih x hx2 y hy2 hk

/-- For a store with pairwise-distinct keys, a `get` returns data exactly
when the key is present and unexpired. -/
theorem get_isSome_iff_present {α : Type} (cm : CacheManager α) (now : ℚ)
    (k : String)
    (hnd : cm.entries.Pairwise (fun a b => a.key ≠ b.key)) :
    (cm.get now k).1.isSome = cm.present now k := by
  cases hfe : cm.entries.find? (fun e => e.key == k) with
  | none =>
      have habs := List.find?_eq_none.mp hfe
      have : cm.present now k = false := by
        simp only [CacheManager.present, List.any_eq_false]
        intro e he
        simp only [Bool.and_eq_true, not_and]
        intro hkey
        exact absurd hkey (by simpa using habs e he)
      simp [CacheManager.get, hfe, this]
  | some e =>
      have hmem := List.mem_of_find?_eq_some hfe
      have hkey : (e.key == k) = true := by
        simpa using List.find?_some hfe
      by_cases hlv : now < e.storedAt + cm.ttl
      · have : cm.present now k = true := by
          simp only [CacheManager.present, List.any_eq_true]
          exact ⟨e, hmem, by simp [hkey, CacheManager.live, hlv]⟩
        simp [CacheManager.get, hfe, hlv, this]
      · have : cm.present now k = false := by
          simp only [CacheManager.present, List.any_eq_false]
          intro x hx
          simp only [Bool.and_eq_true, not_and]
          intro hxkey hxlive
          have hxk : x.key = k := by simpa using hxkey
          have hek : e.key = k := by simpa using hkey
          have hxe : x = e :=
            pairwise_key_unique cm.entries hnd x hx e hmem (hxk.trans hek.symm)
          rw [hxe] at hxlive
          simp only [CacheManager.live, decide_eq_true_eq] at hxlive
          exact hlv hxlive
        simp [CacheManager.get, hfe, hlv, this]

theorem runGets_cons {α : Type} (cm : CacheManager α) (now : ℚ)
    (k : String) (rest : List String) :
    cm.runGets now (k :: rest) = ((cm.get now k).2).runGets now rest := rfl

/-- Accumulated statistics of a sequence of `get` calls. -/
theorem runGets_stats {α : Type} (now : ℚ) :
    ∀ (keys : List String) (cm : CacheManager α),
      ((cm.runGets now keys).stats.hits + (cm.runGets now keys).stats.misses
          = cm.stats.hits + cm.stats.misses + keys.length) ∧
      ((cm.runGets now keys).stats.total_requests
          = cm.stats.total_requests + keys.length) := by
  intro keys
  induction keys with
  | nil => intro cm; simp [CacheManager.runGets]
  | cons k rest ih =>
      intro cm
      rw [runGets_cons]
      have hstep := get_stats_step cm now k
      rcases ih ((cm.get now k).2) with ⟨ih1, ih2⟩
      rcases hstep with ⟨ht, hcase⟩
      constructor
      · rcases hcase with ⟨_, hh, hm⟩ | ⟨_, hh, hm⟩ <;>
          rw [ih1, hh, hm] <;> simp <;> omega
      · rw [ih2, ht]; simp; omega

/-- A `get` for key `k` does not change which keys are present and
unexpired: the store either keeps its entries untouched or only moves the
hit entry to the most-recently-used end. -/
theorem get_preserves_present {α : Type} (cm : CacheManager α) (now : ℚ)
    (k k' : String) :
    ((cm.get now k).2).present now k' = cm.present now k' := by
  cases hfe : cm.entries.find? (fun e => e.key == k) with
  | none => simp [CacheManager.get, hfe, CacheManager.present]
  | some e =>
      by_cases hlv : now < e.storedAt + cm.ttl
      · have hmem := List.mem_of_find?_eq_some hfe
        have hkey : (e.key == k) = true := by
          simpa using List.find?_some hfe
        have hek : e.key = k := by simpa using hkey
        have hiff : (((cm.get now k).2).present now k' = true)
            ↔ (cm.present now k' = true) := by
          simp only [CacheManager.get, hfe, if_pos hlv]
          simp only [CacheManager.present, List.any_eq_true]
          constructor
          · rintro ⟨x, hx, hpx⟩
            rcases List.mem_append.mp hx with h | h
            · exact ⟨x, List.mem_of_mem_filter h, hpx⟩
            · have hxe : x = e := by simpa using h
              exact ⟨e, hmem, by rwa [hxe] at hpx⟩
          · rintro ⟨x, hx, hpx⟩
            by_cases hkk : k' = k
            · refine ⟨e, List.mem_append_right _ (by simp), ?_⟩
              simp only [Bool.and_eq_true]
              exact ⟨by simp [hek, hkk], by simp [CacheManager.live, hlv]⟩
            · refine ⟨x, List.mem_append_left _ ?_, hpx⟩
              apply List.mem_filter.mpr
              refine ⟨hx, ?_⟩
              have hxk : x.key = k' := by
                simp only [Bool.and_eq_true] at hpx
                simpa using hpx.1
              simp [bne, hxk, hkk]
        cases h1 : ((cm.get now k).2).present now k' <;>
          cases h2 : cm.present now k' <;> simp_all
      · simp [CacheManager.get, hfe, if_neg hlv, CacheManager.present]

/-- A `get` preserves pairwise-distinctness of the stored keys. -/
theorem get_preserves_pairwise {α : Type} (cm : CacheManager α) (now : ℚ)
    (k : String)
    (hnd : cm.entries.Pairwise (fun a b => a.key ≠ b.key)) :
    ((cm.get now k).2).entries.Pairwise (fun a b => a.key ≠ b.key) := by
  cases hfe : cm.entries.find? (fun e => e.key == k) with
  | none => simpa [CacheManager.get, hfe] using hnd
  | some e =>
      by_cases hlv : now < e.storedAt + cm.ttl
      · have hek : e.key = k := by simpa using List.find?_some hfe
        simp only [CacheManager.get, hfe, if_pos hlv]
        rw [List.pairwise_append]
        refine ⟨hnd.filter _, by simp, ?_⟩
        intro x hx y hy
        have hy' : y = e := by simpa using hy
        have hxk : (x.key != k) = true := (List.mem_filter.mp hx).2
        rw [hy', hek]
        simpa using hxk
      · simpa [CacheManager.get, hfe, if_neg hlv] using hnd

/-- Counting for a duplicate-free store: a run of `get` calls adds to
`hits` exactly the number of queried keys that are present and unexpired in
the initial store, and to `misses` exactly the number that are not. -/
theorem runGets_counts {α : Type} (now : ℚ) :
    ∀ (keys : List String) (cm : CacheManager α),
      cm.entries.Pairwise (fun a b => a.key ≠ b.key) →
      (cm.runGets now keys).stats.hits
          = cm.stats.hits + keys.countP (fun k => cm.present now k) ∧
      (cm.runGets now keys).stats.misses
          = cm.stats.misses + keys.countP (fun k => !(cm.present now k)) := by
  intro keys
  induction keys with
  | nil => intro cm _; simp [CacheManager.runGets]
  | cons k rest ih =>
      intro cm hnd
      rw [runGets_cons]
      obtain ⟨ih1, ih2⟩ :=
        ih ((cm.get now k).2) (get_preserves_pairwise cm now k hnd)
      have hfun1 : (fun x => ((cm.get now k).2).present now x)
          = (fun x => cm.present now x) :=
        funext (get_preserves_present cm now k)
      have hfun2 : (fun x => !(((cm.get now k).2).present now x))
          = (fun x => !(cm.present now x)) := by
        funext x
        rw [get_preserves_present cm now k x]
      rw [hfun1] at ih1
      rw [hfun2] at ih2
      obtain ⟨ht, hcase⟩ := get_stats_step cm now k
      have hiff := get_isSome_iff_present cm now k hnd
      rw [List.countP_cons, List.countP_cons]
      by_cases hp : cm.present now k = true
      · rcases hcase with ⟨hsome, hh, hm⟩ | ⟨hnone, hh, hm⟩
        · constructor
          · rw [ih1, hh]
            simp [hp]
            omega
          · rw [ih2, hm]
            simp [hp]
        · exfalso
          rw [hnone] at hiff
          simp [hp] at hiff
      · have hp' : cm.present now k = false := by simpa using hp
        rcases hcase with ⟨hsome, hh, hm⟩ | ⟨hnone, hh, hm⟩
        · exfalso
          rw [hp'] at hiff
          rw [hiff] at hsome
          cases hsome
        · constructor
          · rw [ih1, hh]
            simp [hp']
          · rw [ih2, hm]
            simp [hp']
            omega

/-- **C7 (amended).**  For a duplicate-free store, hit/miss accounting
holds exactly as claimed: a `get` returns data exactly when the key is
present and unexpired, and from fresh statistics a run of gets yields
`hits = N` (the number of gets on present unexpired keys), `misses = M`
(the number of gets on absent or expired keys), and `totalRequests = N + M`
with no division by zero — but the reported hit rate is the PERCENTAGE
`100 * N / (N + M)` (formatted as a string by the Python code), not the
fraction `N / (N + M)`. -/
theorem cache_hit_counting_amended :
    (∀ {α : Type} (cm : CacheManager α) (now : ℚ) (k : String),
      cm.entries.Pairwise (fun a b => a.key ≠ b.key) →
      (cm.get now k).1.isSome = cm.present now k) ∧
    (∀ {α : Type} (now : ℚ) (keys : List String) (cm : CacheManager α),
      cm.entries.Pairwise (fun a b => a.key ≠ b.key) →
      cm.stats = zeroCacheStats →
      (cm.runGets now keys).stats.hits
          = keys.countP (fun k => cm.present now k) ∧
      (cm.runGets now keys).stats.misses
          = keys.countP (fun k => !(cm.present now k)) ∧
      (cm.runGets now keys).stats.total_requests = keys.length ∧
      (cm.runGets now keys).hit_rate_percent
          = if keys.length = 0 then 0
            else ((keys.countP (fun k => cm.present now k) : ℕ) : ℚ)
                  / (keys.length : ℚ) * 100) := by
  constructor
  · intro α cm now k hnd
    exact get_isSome_iff_present cm now k hnd
  · intro α now keys cm hnd h0
    obtain ⟨hh, hm⟩ := runGets_counts now keys cm hnd
    rcases runGets_stats now keys cm with ⟨h1, h2⟩
    rw [h0] at hh hm h1 h2
    simp only [zeroCacheStats] at hh hm h1 h2
    refine ⟨by omega, by omega, by omega, ?_⟩
    rcases Nat.eq_zero_or_pos keys.length with hz | hp
    · have h0' : (cm.runGets now keys).stats.total_requests = 0 := by omega
      simp [CacheManager.hit_rate_percent, h0', hz]
    · have htot : (cm.runGets now keys).stats.total_requests = keys.length := by
        omega
      have hhits : (cm.runGets now keys).stats.hits
          = keys.countP (fun k => cm.present now k) := by omega
      have hposq : 0 < (cm.runGets now keys).stats.total_requests := by omega
      simp [CacheManager.hit_rate_percent, hposq, htot, hhits,
        Nat.pos_iff_ne_zero.mp hp]

/-- Witness for C7's amended theorem: the counting clause applied to an
asymmetric run on `cacheWithP` — two gets on the present key `"p"` and one
on the absent key `"q"`. -/
theorem cache_hit_counting_amended_witness :
    (cacheWithP.entries.Pairwise (fun a b => a.key ≠ b.key) ∧
     cacheWithP.stats = zeroCacheStats) ∧
    ((cacheWithP.runGets 1 ["p", "p", "q"]).stats.hits
        = (["p", "p", "q"] : List String).countP
            (fun k => cacheWithP.present 1 k) ∧
     (cacheWithP.runGets 1 ["p", "p", "q"]).stats.misses
        = (["p", "p", "q"] : List String).countP
            (fun k => !(cacheWithP.present 1 k)) ∧
     (cacheWithP.runGets 1 ["p", "p", "q"]).stats.total_requests
        = (["p", "p", "q"] : List String).length ∧
     (cacheWithP.runGets 1 ["p", "p", "q"]).hit_rate_percent
        = if (["p", "p", "q"] : List String).length = 0 then 0
          else (((["p", "p", "q"] : List String).countP
                  (fun k => cacheWithP.present 1 k) : ℕ) : ℚ)
                / ((["p", "p", "q"] : List String).length : ℚ) * 100) :=
  ⟨⟨by simp [cacheWithP], rfl⟩,
   cache_hit_counting_amended.2 1 ["p", "p", "q"] cacheWithP
     (by simp [cacheWithP]) rfl⟩

/-- Counterexample for C7 as stated: after one hit and one miss the code
reports a hit rate of `50` (percent), not the fraction `1 / 2` the claim
states. -/
theorem hit_rate_is_percent_not_fraction :
    cacheWithPAfter.stats.hits = 1 ∧
    cacheWithPAfter.stats.misses = 1 ∧
    (cacheWithPAfter.get_stats 1).2 = 50 ∧
    ¬ ((cacheWithPAfter.get_stats 1).2 = 1 / 2) := by
  have epq : ("p" == "q") = false := by decide
  have eqp : ("q" == "p") = false := by decide
  have ppq : ¬ (("p" : String) = "q") := by decide
  refine ⟨?_, ?_, ?_, ?_⟩ <;>
    norm_num [cacheWithPAfter, cacheWithP, CacheManager.get,
      CacheManager.get_stats, CacheManager.hit_rate_percent, zeroCacheStats,
      List.find?, List.filter, bne, epq, eqp, ppq]

/-! ### Handler task lemmas -/

theorem wait_time_preserves_max (now : ℚ) (rl : RateLimiter) :
    (rl.wait_time_until_next_request now).2.max_requests = rl.max_requests := by
  unfold RateLimiter.wait_time_until_next_request
  split
  · rfl
  · dsimp only
    split
    · rfl
    · split <;> rfl

theorem updateStats_total (b : Bool) (dur : ℚ) (s : HandlerStats) :
    (updateStats b dur s).total_requests = s.total_requests + 1 := rfl

theorem updateStats_succ_fail (b : Bool) (dur : ℚ) (s : HandlerStats) :
    ((updateStats b dur s).successful_requests = s.successful_requests + 1 ∧
     (updateStats b dur s).failed_requests = s.failed_requests) ∨
    ((updateStats b dur s).successful_requests = s.successful_requests ∧
     (updateStats b dur s).failed_requests = s.failed_requests + 1) := by
  cases b
  · right; simp [updateStats]
  · left; simp [updateStats]

theorem updateStats_avg (b : Bool) (dur : ℚ) (s : HandlerStats) :
    (updateStats b dur s).avg_processing_time
      = (s.avg_processing_time * (s.total_requests : ℚ) + dur)
          / ((s.total_requests : ℚ) + 1) := by
  simp only [updateStats]
  push_cast
  ring_nf

/-- Shape of one task execution: the result carries the task's URL, the
queue/pool configuration and the rate limiter's capacity are untouched, and
the final statistics are exactly one `updateStats` application on the prior
statistics (with only `cache_hits` possibly bumped beforehand). -/
theorem processSingle_effects (fetch : String → Bool → FetchOutcome)
    (now dur : ℚ) (task : RequestTask) (st : HandlerState) :
    (processSingle fetch now dur task st).1.url = task.url ∧
    (processSingle fetch now dur task st).2.request_queue = st.request_queue ∧
    (processSingle fetch now dur task st).2.max_queue_size = st.max_queue_size ∧
    (processSingle fetch now dur task st).2.max_workers = st.max_workers ∧
    (processSingle fetch now dur task st).2.rate_limiter.max_requests
        = st.rate_limiter.max_requests ∧
    (∃ (bs : Bool) (ch : ℕ),
      (processSingle fetch now dur task st).2.stats
        = updateStats bs dur { st.stats with cache_hits := ch } ∧
      bs = (processSingle fetch now dur task st).1.success) := by
  rcases hcl : (if task.bypass_cache then (none, st.cache)
      else st.cache.get now task.url) with ⟨_ | ⟨d, ts⟩, cache1⟩
  case mk.some =>
    refine ⟨?_, ?_, ?_, ?_, ?_, true, st.stats.cache_hits + 1, ?_, ?_⟩ <;>
      simp [processSingle, hcl]
  case mk.none =>
    rcases hwt : st.rate_limiter.wait_time_until_next_request now
      with ⟨_ | w, rl1⟩
    case mk.none =>
      have hrl1 : rl1.max_requests = st.rate_limiter.max_requests := by
        have h := wait_time_preserves_max now st.rate_limiter
        rw [hwt] at h
        exact h
      refine ⟨?_, ?_, ?_, ?_, ?_, false, st.stats.cache_hits, ?_, ?_⟩ <;>
        simp [processSingle, hcl, hwt, hrl1]
    case mk.some =>
      have hrl1 : rl1.max_requests = st.rate_limiter.max_requests := by
        have h := wait_time_preserves_max now st.rate_limiter
        rw [hwt] at h
        exact h
      rcases hf : fetch task.url task.bypass_cache with r | m
      · refine ⟨?_, ?_, ?_, ?_, ?_, r.success, st.stats.cache_hits, ?_, ?_⟩ <;>
          simp [processSingle, hcl, hwt, hf, RateLimiter.add_request, hrl1]
      · refine ⟨?_, ?_, ?_, ?_, ?_, false, st.stats.cache_hits, ?_, ?_⟩ <;>
          simp [processSingle, hcl, hwt, hf, RateLimiter.add_request, hrl1]

/-- The per-task statistics facts of C9, extracted from the shape lemma. -/
theorem processSingle_stats_step (fetch : String → Bool → FetchOutcome)
    (now dur : ℚ) (task : RequestTask) (st : HandlerState) :
    (processSingle fetch now dur task st).2.stats.total_requests
        = st.stats.total_requests + 1 ∧
    (((processSingle fetch now dur task st).2.stats.successful_requests
          = st.stats.successful_requests + 1 ∧
      (processSingle fetch now dur task st).2.stats.failed_requests
          = st.stats.failed_requests) ∨
     ((processSingle fetch now dur task st).2.stats.successful_requests
          = st.stats.successful_requests ∧
      (processSingle fetch now dur task st).2.stats.failed_requests
          = st.stats.failed_requests + 1)) ∧
    (processSingle fetch now dur task st).2.stats.avg_processing_time
        = (st.stats.avg_processing_time * (st.stats.total_requests : ℚ) + dur)
            / ((st.stats.total_requests : ℚ) + 1) := by
  obtain ⟨_, _, _, _, _, bs, ch, hshape, _⟩ :=
    processSingle_effects fetch now dur task st
  rw [hshape]
  refine ⟨rfl, ?_, ?_⟩
  · exact updateStats_succ_fail bs dur { st.stats with cache_hits := ch }
  · exact updateStats_avg bs dur { st.stats with cache_hits := ch }

theorem processBatch_cons (fetch : String → Bool → FetchOutcome) (b : Bool)
    (j : BatchJob) (rest : List BatchJob) (st : HandlerState) :
    processBatch fetch b (j :: rest) st
      = ((processSingle fetch j.now j.dur (batchTask b j) st).1
          :: (processBatch fetch b rest
                (processSingle fetch j.now j.dur (batchTask b j) st).2).1,
         (processBatch fetch b rest
            (processSingle fetch j.now j.dur (batchTask b j) st).2).2) := rfl

/-- Accumulated batch statistics: totals add up and the running average
times the final total equals the accumulated duration mass. -/
theorem processBatch_stats (fetch : String → Bool → FetchOutcome) (b : Bool) :
    ∀ (jobs : List BatchJob) (st : HandlerState),
      (processBatch fetch b jobs st).2.stats.total_requests
          = st.stats.total_requests + jobs.length ∧
      (processBatch fetch b jobs st).2.stats.avg_processing_time
          * ((st.stats.total_requests : ℚ) + (jobs.length : ℚ))
        = st.stats.avg_processing_time * (st.stats.total_requests : ℚ)
          + (jobs.map BatchJob.dur).sum := by
  intro jobs
  induction jobs with
  | nil => intro st; simp [processBatch]
  | cons j rest ih =>
      intro st
      obtain ⟨h1, _, h3⟩ := processSingle_stats_step fetch j.now j.dur
        (batchTask b j) st
      obtain ⟨ih1, ih2⟩ :=
        ih (processSingle fetch j.now j.dur (batchTask b j) st).2
      simp only [processBatch_cons]
      set st1 := (processSingle fetch j.now j.dur (batchTask b j) st).2
        with hst1
      constructor
      · rw [ih1, h1, List.length_cons]
        omega
      · have hT1 : ((st1.stats.total_requests : ℕ) : ℚ)
            = (st.stats.total_requests : ℚ) + 1 := by
          rw [h1]; push_cast; ring
        have hden : ((st.stats.total_requests : ℚ) + 1) ≠ 0 := by positivity
        have hA1 : st1.stats.avg_processing_time
              * ((st.stats.total_requests : ℚ) + 1)
            = st.stats.avg_processing_time * (st.stats.total_requests : ℚ)
              + j.dur := by
          rw [h3, div_mul_cancel₀ _ hden]
        rw [hT1] at ih2
        rw [List.map_cons, List.sum_cons, List.length_cons]
        push_cast
        linear_combination ih2 + hA1

/-! ### C9 — statistics updated exactly once per task -/

/-- **C9.**  After every completed task — cache hit, fetch success, fetch
failure, or raised exception — the handler statistics are updated exactly
once: `total_requests` goes up by one, exactly one of
`successful_requests` / `failed_requests` goes up by one, and the running
average becomes `(oldAvg * (n-1) + dur) / n` for the new total `n`
(equivalently `(oldAvg * oldTotal + dur) / (oldTotal + 1)`).  Consequently a
batch of `n` tasks processed from fresh statistics leaves
`avg_processing_time` equal to the arithmetic mean of the task durations. -/
theorem statistics_updated_once_per_task :
    (∀ (fetch : String → Bool → FetchOutcome) (now dur : ℚ)
        (task : RequestTask) (st : HandlerState),
      (processSingle fetch now dur task st).2.stats.total_requests
          = st.stats.total_requests + 1 ∧
      (((processSingle fetch now dur task st).2.stats.successful_requests
            = st.stats.successful_requests + 1 ∧
        (processSingle fetch now dur task st).2.stats.failed_requests
            = st.stats.failed_requests) ∨
       ((processSingle fetch now dur task st).2.stats.successful_requests
            = st.stats.successful_requests ∧
        (processSingle fetch now dur task st).2.stats.failed_requests
            = st.stats.failed_requests + 1)) ∧
      (processSingle fetch now dur task st).2.stats.avg_processing_time
          = (st.stats.avg_processing_time * (st.stats.total_requests : ℚ)
              + dur) / ((st.stats.total_requests : ℚ) + 1)) ∧
    (∀ (fetch : String → Bool → FetchOutcome) (b : Bool)
        (jobs : List BatchJob) (st : HandlerState),
      st.stats = freshStats → jobs ≠ [] →
      (processBatch fetch b jobs st).2.stats.avg_processing_time
          = (jobs.map BatchJob.dur).sum / (jobs.length : ℚ)) := by
  constructor
  · intro fetch now dur task st
    exact processSingle_stats_step fetch now dur task st
  · intro fetch b jobs st h0 hne
    obtain ⟨h1, h2⟩ := processBatch_stats fetch b jobs st
    rw [h0] at h1 h2
    simp only [freshStats] at h1 h2
    have hlen : (jobs.length : ℚ) ≠ 0 := by
      have hl : jobs.length ≠ 0 :=
        Nat.pos_iff_ne_zero.mp (List.length_pos.mpr hne)
      exact_mod_cast hl
    rw [eq_div_iff hlen]
    simpa using h2

/-- Witness for C9: the batch-mean clause applied to two jobs with
durations 1 and 3 on a fresh handler. -/
theorem statistics_updated_once_per_task_witness :
    (freshHandler.stats = freshStats ∧ twoJobs ≠ []) ∧
    (processBatch fetchOk false twoJobs freshHandler).2.stats.avg_processing_time
        = (twoJobs.map BatchJob.dur).sum / (twoJobs.length : ℚ) :=
  ⟨⟨rfl, by decide⟩,
   statistics_updated_once_per_task.2 fetchOk false twoJobs freshHandler rfl
     (by decide)⟩

/-! ### C10 — batch results preserve input order -/

/-- **C10.**  `process_batch` with `return_partial = true` returns exactly
one result per input URL, in input order: the futures list is awaited in
submission order, so the i-th returned result carries the i-th input URL. -/
theorem processBatch_returns_in_input_order
    (fetch : String → Bool → FetchOutcome) (b : Bool) :
    ∀ (jobs : List BatchJob) (st : HandlerState),
      (processBatch fetch b jobs st).1.length = jobs.length ∧
      (processBatch fetch b jobs st).1.map RequestResult.url
        = jobs.map BatchJob.url := by
  intro jobs
  induction jobs with
  | nil => intro st; simp [processBatch]
  | cons j rest ih =>
      intro st
      obtain ⟨hurl, _⟩ := processSingle_effects fetch j.now j.dur
        (batchTask b j) st
      obtain ⟨ih1, ih2⟩ :=
        ih (processSingle fetch j.now j.dur (batchTask b j) st).2
      simp only [processBatch_cons, List.length_cons, List.map_cons]
      refine ⟨by rw [ih1], ?_⟩
      rw [ih2, hurl]
      rfl

/-! ### C5 — queue capacity -/

/-- **C5 (amended).**  `process_batch` submits every task directly to the
executor no matter how large the batch is: the bounded `request_queue`
created in `__init__` is never consulted or written, every URL still yields
a result, and no capacity error exists on this code path. -/
theorem processBatch_ignores_queue_bound
    (fetch : String → Bool → FetchOutcome) (b : Bool) :
    ∀ (jobs : List BatchJob) (st : HandlerState),
      (processBatch fetch b jobs st).1.length = jobs.length ∧
      (processBatch fetch b jobs st).2.request_queue = st.request_queue ∧
      (processBatch fetch b jobs st).2.max_queue_size = st.max_queue_size := by
  intro jobs
  induction jobs with
  | nil => intro st; simp [processBatch]
  | cons j rest ih =>
      intro st
      obtain ⟨_, hq, hqs, _⟩ := processSingle_effects fetch j.now j.dur
        (batchTask b j) st
      obtain ⟨ih1, ih2, ih3⟩ :=
        ih (processSingle fetch j.now j.dur (batchTask b j) st).2
      simp only [processBatch_cons, List.length_cons]
      exact ⟨by rw [ih1], by rw [ih2, hq], by rw [ih3, hqs]⟩

set_option maxHeartbeats 2000000 in
/-- Counterexample for C5 as stated: with `max_queue_size = 1` (and one
worker) a batch of three URLs is not rejected — all three tasks run, all
succeed, and the bounded queue is never touched.  No capacity error is
raised anywhere on this code path. -/
theorem batch_over_capacity_not_rejected :
    (processBatch fetchOk false threeJobs tinyQueueHandler).1.length = 3 ∧
    ((processBatch fetchOk false threeJobs tinyQueueHandler).1.all
        (fun r => r.success)) = true ∧
    (processBatch fetchOk false threeJobs tinyQueueHandler).2.request_queue
        = [] := by
  have eba : ("b" == "a") = false := by decide
  have eca : ("c" == "a") = false := by decide
  have eab : ("a" == "b") = false := by decide
  have ecb : ("c" == "b") = false := by decide
  have eac : ("a" == "c") = false := by decide
  have ebc : ("b" == "c") = false := by decide
  refine ⟨?_, ?_, ?_⟩ <;>
    norm_num [processBatch, processSingle, batchTask, threeJobs,
      tinyQueueHandler, freshHandler, fetchOk, CacheManager.get,
      CacheManager.set, CacheManager.live,
      RateLimiter.wait_time_until_next_request, RateLimiter.add_request,
      updateStats, zeroCacheStats, freshStats, List.find?, List.filter, bne,
      eba, eca, eab, ecb, eac, ebc]

/-! ### C4 — partial failure in a batch -/

theorem processBatch_length (fetch : String → Bool → FetchOutcome) (b : Bool) :
    ∀ (jobs : List BatchJob) (st : HandlerState),
      (processBatch fetch b jobs st).1.length = jobs.length := by
  intro jobs
  induction jobs with
  | nil => intro st; rfl
  | cons j rest ih =>
      intro st
      simp only [processBatch_cons, List.length_cons, ih]

theorem mem_get_entries {α : Type} (cm : CacheManager α) (now : ℚ)
    (k : String) (x : CacheEntry α) :
    x ∈ ((cm.get now k).2).entries → x ∈ cm.entries := by
  intro hx
  cases hfe : cm.entries.find? (fun e => e.key == k) with
  | none =>
      simp only [CacheManager.get, hfe] at hx
      exact hx
  | some e =>
      by_cases hlv : now < e.storedAt + cm.ttl
      · simp only [CacheManager.get, hfe, if_pos hlv] at hx
        rcases List.mem_append.mp hx with h | h
        · exact List.mem_of_mem_filter h
        · have hxe : x = e := by simpa using h
          rw [hxe]
          exact List.mem_of_find?_eq_some hfe
      · simp only [CacheManager.get, hfe, if_neg hlv] at hx
        exact hx

theorem mem_set_entries {α : Type} (cm : CacheManager α) (now : ℚ)
    (k : String) (v : α) (x : CacheEntry α) :
    x ∈ (cm.set now k v).entries → x ∈ cm.entries ∨ x = ⟨k, v, now⟩ := by
  intro hx
  simp only [CacheManager.set] at hx
  split at hx
  · rcases List.mem_append.mp hx with h | h
    · exact Or.inl (List.mem_of_mem_filter (List.mem_of_mem_filter h))
    · exact Or.inr (by simpa using h)
  · rcases List.mem_append.mp hx with h | h
    · split at h
      · exact Or.inl (List.mem_of_mem_filter (List.mem_of_mem_drop h))
      · exact Or.inl (List.mem_of_mem_filter h)
    · exact Or.inr (by simpa using h)

theorem get_some_key {α : Type} (cm : CacheManager α) (now : ℚ) (k : String)
    (d : α) (ts : ℚ) (c1 : CacheManager α)
    (h : cm.get now k = (some (d, ts), c1)) :
    ∃ e ∈ cm.entries, e.key = k := by
  cases hfe : cm.entries.find? (fun e => e.key == k) with
  | none => simp [CacheManager.get, hfe] at h
  | some e =>
      refine ⟨e, List.mem_of_find?_eq_some hfe, ?_⟩
      simpa using List.find?_some hfe

/-- Provenance of cache entries across one task: every entry after the task
was already present before, or is the just-stored result of a successful
fetch of the task's URL. -/
theorem processSingle_cache_provenance (fetch : String → Bool → FetchOutcome)
    (now dur : ℚ) (task : RequestTask) (st : HandlerState)
    (x : CacheEntry FetchResult) :
    x ∈ (processSingle fetch now dur task st).2.cache.entries →
      x ∈ st.cache.entries ∨
      ∃ r, fetch task.url task.bypass_cache = .ok r ∧ r.success = true ∧
        x = ⟨task.url, r, now⟩ := by
  rcases hcl : (if task.bypass_cache then (none, st.cache)
      else st.cache.get now task.url) with ⟨o, cache1⟩
  have hc1 : ∀ y : CacheEntry FetchResult,
      y ∈ cache1.entries → y ∈ st.cache.entries := by
    intro y hy
    by_cases hb : task.bypass_cache
    · rw [if_pos hb] at hcl
      cases hcl
      exact hy
    · rw [if_neg hb] at hcl
      have h2 : cache1 = (st.cache.get now task.url).2 := by
        rw [hcl]
      rw [h2] at hy
      exact mem_get_entries st.cache now task.url y hy
  rcases o with _ | ⟨d, ts⟩
  · rcases hwt : st.rate_limiter.wait_time_until_next_request now
      with ⟨_ | w, rl1⟩
    · intro hx
      simp only [processSingle, hcl, hwt] at hx
      exact Or.inl (hc1 x hx)
    · rcases hf : fetch task.url task.bypass_cache with r | m
      · by_cases hrs : r.success
        · intro hx
          simp only [processSingle, hcl, hwt, hf, hrs, if_true] at hx
          rcases mem_set_entries cache1 now task.url r x hx with h | h
          · exact Or.inl (hc1 x h)
          · exact Or.inr ⟨r, rfl, hrs, h⟩
        · intro hx
          simp only [processSingle, hcl, hwt, hf, hrs, if_false] at hx
          exact Or.inl (hc1 x hx)
      · intro hx
        simp only [processSingle, hcl, hwt, hf] at hx
        exact Or.inl (hc1 x hx)
  · intro hx
    simp only [processSingle, hcl] at hx
    exact Or.inl (hc1 x hx)

theorem wait_time_some (now : ℚ) (rl : RateLimiter)
    (h : 0 < rl.max_requests) :
    ((rl.wait_time_until_next_request now).1).isSome = true := by
  unfold RateLimiter.wait_time_until_next_request
  split
  · rfl
  · dsimp only
    split
    · rfl
    · next h2 =>
        cases hmin : (rl.requests.filter
            (fun t => now - rl.window_seconds < t)).min? with
        | none =>
            have hne : rl.requests.filter
                (fun t => now - rl.window_seconds < t) ≠ [] := by
              intro hnil
              rw [hnil] at h2
              simp at h2
              omega
            have hs := min?_isSome_of_ne_nil _ hne
            rw [hmin] at hs
            simp at hs
        | some m => simp [hmin]

/-- A task whose cache lookup misses and whose fetch fails produces a failed
result carrying the fetch's error message. -/
theorem processSingle_fail_result (fetch : String → Bool → FetchOutcome)
    (now dur : ℚ) (task : RequestTask) (st : HandlerState)
    (hmax : 0 < st.rate_limiter.max_requests)
    (hmiss : (if task.bypass_cache then (none, st.cache)
        else st.cache.get now task.url).1 = none)
    (hf : fetchFails (fetch task.url task.bypass_cache) = true) :
    (processSingle fetch now dur task st).1.success = false ∧
    (processSingle fetch now dur task st).1.error
        = errOf (fetch task.url task.bypass_cache) := by
  rcases hcl : (if task.bypass_cache then (none, st.cache)
      else st.cache.get now task.url) with ⟨o, cache1⟩
  rcases o with _ | ⟨d, ts⟩
  · rcases hwt : st.rate_limiter.wait_time_until_next_request now
      with ⟨w, rl1⟩
    have hws := wait_time_some now st.rate_limiter hmax
    rw [hwt] at hws
    cases w with
    | none => simp at hws
    | some wv =>
        rcases hfo : fetch task.url task.bypass_cache with r | m
        · have hrs : r.success = false := by
            simpa [fetchFails, hfo] using hf
          constructor <;>
            simp [processSingle, hcl, hwt, hfo, hrs, errOf]
        · constructor <;> simp [processSingle, hcl, hwt, hfo, errOf]
  · rw [hcl] at hmiss
    simp at hmiss

/-- Auxiliary induction for C4: in a batch starting from a cache whose
entries all stem from successfully fetchable keys, every job whose fetch
fails yields a failed result with the fetch's error message at its own
position. -/
theorem processBatch_fail_results (fetch : String → Bool → FetchOutcome)
    (b : Bool) :
    ∀ (jobs : List BatchJob) (st : HandlerState),
      (∀ e ∈ st.cache.entries, fetchFails (fetch e.key b) = false) →
      0 < st.rate_limiter.max_requests →
      ∀ (i : ℕ) (j : BatchJob), jobs[i]? = some j →
        fetchFails (fetch j.url b) = true →
        ∃ r, (processBatch fetch b jobs st).1[i]? = some r ∧
          r.success = false ∧ r.error = errOf (fetch j.url b) := by
  intro jobs
  induction jobs with
  | nil =>
      intro st _ _ i j hget
      simp at hget
  | cons jb rest ih =>
      intro st hinv hmax i j hget hf
      have htask : (batchTask b jb).bypass_cache = b := rfl
      have hturl : (batchTask b jb).url = jb.url := rfl
      cases i with
      | zero =>
          simp only [List.getElem?_cons_zero] at hget
          obtain rfl : jb = j := by injection hget
          have hmiss : (if (batchTask b jb).bypass_cache
                then (none, st.cache)
                else st.cache.get jb.now (batchTask b jb).url).1 = none := by
            rw [htask, hturl]
            cases b with
            | true => rfl
            | false =>
                simp only [Bool.false_eq_true, if_false]
                rcases hg : st.cache.get jb.now jb.url with ⟨og, cg⟩
                rcases og with _ | ⟨d, ts⟩
                · rfl
                · obtain ⟨e, hemem, hekey⟩ :=
                    get_some_key st.cache jb.now jb.url d ts cg hg
                  have hek := hinv e hemem
                  rw [hekey] at hek
                  rw [hek] at hf
                  cases hf
          obtain ⟨h1, h2⟩ := processSingle_fail_result fetch jb.now jb.dur
            (batchTask b jb) st hmax hmiss
            (by simpa [htask, hturl] using hf)
          refine ⟨(processSingle fetch jb.now jb.dur
            (batchTask b jb) st).1, ?_, h1, ?_⟩
          · simp [processBatch_cons]
          · simpa [htask, hturl] using h2
      | succ n =>
          simp only [List.getElem?_cons_succ] at hget
          have hinv1 : ∀ e ∈ (processSingle fetch jb.now jb.dur
              (batchTask b jb) st).2.cache.entries,
              fetchFails (fetch e.key b) = false := by
            intro e he
            rcases processSingle_cache_provenance fetch jb.now jb.dur
              (batchTask b jb) st e he with h | ⟨r, hfr, hrs, hxe⟩
            · exact hinv e h
            · rw [hxe]
              simp only [htask, hturl] at hfr
              simp [fetchFails, hturl, hfr, hrs]
          have hmax1 : 0 < (processSingle fetch jb.now jb.dur
              (batchTask b jb) st).2.rate_limiter.max_requests := by
            obtain ⟨_, _, _, _, hm, _⟩ := processSingle_effects fetch jb.now
              jb.dur (batchTask b jb) st
            rw [hm]
            exact hmax
          obtain ⟨r, hr1, hr2, hr3⟩ := ih _ hinv1 hmax1 n j hget hf
          refine ⟨r, ?_, hr2, hr3⟩
          simpa [processBatch_cons] using hr1

set_option maxHeartbeats 2000000 in
/-- **C4.**  With `return_partial = true`, `process_batch` never raises and
returns exactly one result per URL; starting from an empty cache (and a
positive rate limit), every URL whose fetch fails — an unsuccessful
dictionary or a raised exception — yields a result with `success = false`
carrying the fetch's error message, while the other URLs still yield their
results.  Concretely, a batch of three URLs of which exactly one fails
returns three results with two successes and one failure. -/
theorem batch_failures_are_data :
    (∀ (fetch : String → Bool → FetchOutcome) (b : Bool)
        (jobs : List BatchJob) (st : HandlerState),
      st.cache.entries = [] → 0 < st.rate_limiter.max_requests →
      (processBatch fetch b jobs st).1.length = jobs.length ∧
      (∀ (i : ℕ) (j : BatchJob), jobs[i]? = some j →
        fetchFails (fetch j.url b) = true →
        ∃ r, (processBatch fetch b jobs st).1[i]? = some r ∧
          r.success = false ∧ r.error = errOf (fetch j.url b))) ∧
    ((processBatch fetchFailB false threeJobs freshHandler).1.length = 3 ∧
     ((processBatch fetchFailB false threeJobs freshHandler).1.countP
        (fun r => r.success)) = 2 ∧
     ((processBatch fetchFailB false threeJobs freshHandler).1.countP
        (fun r => !r.success)) = 1) := by
  constructor
  · intro fetch b jobs st hempty hmax
    refine ⟨processBatch_length fetch b jobs st, ?_⟩
    intro i j hget hf
    refine processBatch_fail_results fetch b jobs st ?_ hmax i j hget hf
    intro e he
    rw [hempty] at he
    cases he
  · have eba : ("b" == "a") = false := by decide
    have eca : ("c" == "a") = false := by decide
    have eab : ("a" == "b") = false := by decide
    have ecb : ("c" == "b") = false := by decide
    have eac : ("a" == "c") = false := by decide
    have ebc : ("b" == "c") = false := by decide
    refine ⟨?_, ?_, ?_⟩ <;>
      norm_num [processBatch, processSingle, batchTask, threeJobs,
        freshHandler, fetchFailB, CacheManager.get, CacheManager.set,
        CacheManager.live, RateLimiter.wait_time_until_next_request,
        RateLimiter.add_request, updateStats, zeroCacheStats, freshStats,
        List.find?, List.filter, List.countP, List.countP.go, bne, eba, eca,
        eab, ecb, eac, ebc]

/-- Witness for C4: the per-index clause applied to the failing URL `"b"`
(index 1) of the concrete three-URL batch. -/
theorem batch_failures_are_data_witness :
    (freshHandler.cache.entries = [] ∧
     0 < freshHandler.rate_limiter.max_requests ∧
     threeJobs[1]? = some ⟨"b", 0, 1⟩ ∧
     fetchFails (fetchFailB "b" false) = true) ∧
    (∃ r, (processBatch fetchFailB false threeJobs freshHandler).1[1]?
          = some r ∧
      r.success = false ∧ r.error = errOf (fetchFailB "b" false)) :=
  ⟨⟨rfl, by decide, by decide, by decide⟩,
   (batch_failures_are_data.1 fetchFailB false threeJobs freshHandler rfl
      (by decide)).2 1 ⟨"b", 0, 1⟩ (by decide) (by decide)⟩

/-! ### C8 — stream early stop -/

theorem dropLast_all_cons (r : RequestResult) (l : List RequestResult)
    (hr : r.success = true)
    (hl : (l.dropLast.all fun x => x.success) = true) :
    ((r :: l).dropLast.all fun x => x.success) = true := by
  cases l with
  | nil => simp
  | cons a t =>
      rw [List.dropLast_cons₂, List.all_cons, hr]
      simpa using hl

/-- Once the collection loop of `process_stream` (with `stop_on_error`)
yields a failed result it yields nothing further: every yielded result
except possibly the last is a success.  Fuel-indexed induction over the
loop. -/
theorem streamLoop_stops_after_failure (fetch : String → Bool → FetchOutcome)
    (now dur : ℚ) :
    ∀ (n : ℕ) (pending : List RequestResult) (rest : List String)
      (st : HandlerState), pending.length + rest.length ≤ n →
      ((streamLoop fetch now dur true pending rest st).1.dropLast.all
          (fun r => r.success)) = true := by
  intro n
  induction n with
  | zero =>
      intro pending rest st hle
      have hp : pending = [] := by
        cases pending with
        | nil => rfl
        | cons a t => simp at hle
      subst hp
      simp [streamLoop]
  | succ n ih =>
      intro pending rest st hle
      cases pending with
      | nil => simp [streamLoop]
      | cons r pending' =>
          by_cases hs : r.success = true
          · cases rest with
            | nil =>
                have h1 := ih pending' [] st (by
                  simp only [List.length_cons, List.length_nil] at hle ⊢
                  omega)
                simp only [streamLoop, hs, Bool.not_true, Bool.false_and,
                  Bool.false_eq_true, if_false]
                exact dropLast_all_cons r _ hs h1
            | cons u rest' =>
                have h1 := ih
                  (pending' ++ [(processSingle fetch now dur
                    (streamTask u) st).1])
                  rest'
                  (processSingle fetch now dur (streamTask u) st).2 (by
                    simp only [List.length_append, List.length_cons,
                      List.length_nil] at hle ⊢
                    omega)
                simp only [streamLoop, hs, Bool.not_true, Bool.false_and,
                  Bool.false_eq_true, if_false]
                exact dropLast_all_cons r _ hs h1
          · have hs' : r.success = false := by
              simpa using hs
            cases rest with
            | nil =>
                simp only [streamLoop, hs', Bool.not_false, Bool.true_and,
                  if_true]
                rfl
            | cons u rest' =>
                simp only [streamLoop, hs', Bool.not_false, Bool.true_and,
                  if_true]
                rfl

set_option maxHeartbeats 4000000 in
/-- **C8 (amended).**  With `stop_on_error` set, the stream yields nothing
after a failed result (with the second of five URLs failing it yields
exactly two results, the failure last) — but the URLs already submitted to
the executor are still fetched: with the default
`max_concurrent = max_workers = 5` all five URLs appear in the fetch log
even though only two results are ever yielded. -/
theorem stream_early_stop_amended :
    (∀ (fetch : String → Bool → FetchOutcome) (now dur : ℚ) (mc : ℕ)
        (urls : List String) (st : HandlerState),
      ((processStream fetch now dur mc true urls st).1.dropLast.all
          (fun r => r.success)) = true) ∧
    (fiveUrlRun.1.length = 2 ∧
     fiveUrlRun.1.map (fun r => r.success) = [true, false] ∧
     fiveUrlRun.2.fetch_log = fiveUrls) := by
  constructor
  · intro fetch now dur mc urls st
    unfold processStream
    exact streamLoop_stops_after_failure fetch now dur _ _ _ _ (le_refl _)
  ·
    have sbu1u2 : ("u1" == "u2") = false := by decide
    have spu1u2 : ¬(("u1" : String) = "u2") := by decide
    have sbu1u3 : ("u1" == "u3") = false := by decide
    have spu1u3 : ¬(("u1" : String) = "u3") := by decide
    have sbu1u4 : ("u1" == "u4") = false := by decide
    have spu1u4 : ¬(("u1" : String) = "u4") := by decide
    have sbu1u5 : ("u1" == "u5") = false := by decide
    have spu1u5 : ¬(("u1" : String) = "u5") := by decide
    have sbu2u1 : ("u2" == "u1") = false := by decide
    have spu2u1 : ¬(("u2" : String) = "u1") := by decide
    have sbu2u3 : ("u2" == "u3") = false := by decide
    have spu2u3 : ¬(("u2" : String) = "u3") := by decide
    have sbu2u4 : ("u2" == "u4") = false := by decide
    have spu2u4 : ¬(("u2" : String) = "u4") := by decide
    have sbu2u5 : ("u2" == "u5") = false := by decide
    have spu2u5 : ¬(("u2" : String) = "u5") := by decide
    have sbu3u1 : ("u3" == "u1") = false := by decide
    have spu3u1 : ¬(("u3" : String) = "u1") := by decide
    have sbu3u2 : ("u3" == "u2") = false := by decide
    have spu3u2 : ¬(("u3" : String) = "u2") := by decide
    have sbu3u4 : ("u3" == "u4") = false := by decide
    have spu3u4 : ¬(("u3" : String) = "u4") := by decide
    have sbu3u5 : ("u3" == "u5") = false := by decide
    have spu3u5 : ¬(("u3" : String) = "u5") := by decide
    have sbu4u1 : ("u4" == "u1") = false := by decide
    have spu4u1 : ¬(("u4" : String) = "u1") := by decide
    have sbu4u2 : ("u4" == "u2") = false := by decide
    have spu4u2 : ¬(("u4" : String) = "u2") := by decide
    have sbu4u3 : ("u4" == "u3") = false := by decide
    have spu4u3 : ¬(("u4" : String) = "u3") := by decide
    have sbu4u5 : ("u4" == "u5") = false := by decide
    have spu4u5 : ¬(("u4" : String) = "u5") := by decide
    have sbu5u1 : ("u5" == "u1") = false := by decide
    have spu5u1 : ¬(("u5" : String) = "u1") := by decide
    have sbu5u2 : ("u5" == "u2") = false := by decide
    have spu5u2 : ¬(("u5" : String) = "u2") := by decide
    have sbu5u3 : ("u5" == "u3") = false := by decide
    have spu5u3 : ¬(("u5" : String) = "u3") := by decide
    have sbu5u4 : ("u5" == "u4") = false := by decide
    have spu5u4 : ¬(("u5" : String) = "u4") := by decide
    norm_num [fiveUrlRun, fiveUrls, processStream, streamLoop,
      processBatch, processSingle, batchTask, streamTask, freshHandler,
      fetchFailSecond, CacheManager.get, CacheManager.set,
      CacheManager.live, RateLimiter.wait_time_until_next_request,
      RateLimiter.add_request, updateStats, zeroCacheStats, freshStats,
      List.find?, List.filter, bne,
      sbu1u2, spu1u2, sbu1u3, spu1u3, sbu1u4, spu1u4, sbu1u5, spu1u5, sbu2u1, spu2u1, sbu2u3, spu2u3, sbu2u4, spu2u4, sbu2u5, spu2u5, sbu3u1, spu3u1, sbu3u2, spu3u2, sbu3u4, spu3u4, sbu3u5, spu3u5, sbu4u1, spu4u1, sbu4u2, spu4u2, sbu4u3, spu4u3, sbu4u5, spu4u5, sbu5u1, spu5u1, sbu5u2, spu5u2, sbu5u3, spu5u3, sbu5u4, spu5u4]

set_option maxHeartbeats 4000000 in
/-- Counterexample for C8 as stated: in the five-URL scenario the stream
does yield exactly two results, but the claim's "the remaining 3 URLs are
never fetched" is false — the fetch log contains all five URLs (they were
submitted to the executor before the failure was yielded). -/
theorem stream_remaining_urls_still_fetched :
    fiveUrlRun.1.length = 2 ∧ fiveUrlRun.2.fetch_log.length = 5 := by
  have sbu1u2 : ("u1" == "u2") = false := by decide
  have spu1u2 : ¬(("u1" : String) = "u2") := by decide
  have sbu1u3 : ("u1" == "u3") = false := by decide
  have spu1u3 : ¬(("u1" : String) = "u3") := by decide
  have sbu1u4 : ("u1" == "u4") = false := by decide
  have spu1u4 : ¬(("u1" : String) = "u4") := by decide
  have sbu1u5 : ("u1" == "u5") = false := by decide
  have spu1u5 : ¬(("u1" : String) = "u5") := by decide
  have sbu2u1 : ("u2" == "u1") = false := by decide
  have spu2u1 : ¬(("u2" : String) = "u1") := by decide
  have sbu2u3 : ("u2" == "u3") = false := by decide
  have spu2u3 : ¬(("u2" : String) = "u3") := by decide
  have sbu2u4 : ("u2" == "u4") = false := by decide
  have spu2u4 : ¬(("u2" : String) = "u4") := by decide
  have sbu2u5 : ("u2" == "u5") = false := by decide
  have spu2u5 : ¬(("u2" : String) = "u5") := by decide
  have sbu3u1 : ("u3" == "u1") = false := by decide
  have spu3u1 : ¬(("u3" : String) = "u1") := by decide
  have sbu3u2 : ("u3" == "u2") = false := by decide
  have spu3u2 : ¬(("u3" : String) = "u2") := by decide
  have sbu3u4 : ("u3" == "u4") = false := by decide
  have spu3u4 : ¬(("u3" : String) = "u4") := by decide
  have sbu3u5 : ("u3" == "u5") = false := by decide
  have spu3u5 : ¬(("u3" : String) = "u5") := by decide
  have sbu4u1 : ("u4" == "u1") = false := by decide
  have spu4u1 : ¬(("u4" : String) = "u1") := by decide
  have sbu4u2 : ("u4" == "u2") = false := by decide
  have spu4u2 : ¬(("u4" : String) = "u2") := by decide
  have sbu4u3 : ("u4" == "u3") = false := by decide
  have spu4u3 : ¬(("u4" : String) = "u3") := by decide
  have sbu4u5 : ("u4" == "u5") = false := by decide
  have spu4u5 : ¬(("u4" : String) = "u5") := by decide
  have sbu5u1 : ("u5" == "u1") = false := by decide
  have spu5u1 : ¬(("u5" : String) = "u1") := by decide
  have sbu5u2 : ("u5" == "u2") = false := by decide
  have spu5u2 : ¬(("u5" : String) = "u2") := by decide
  have sbu5u3 : ("u5" == "u3") = false := by decide
  have spu5u3 : ¬(("u5" : String) = "u3") := by decide
  have sbu5u4 : ("u5" == "u4") = false := by decide
  have spu5u4 : ¬(("u5" : String) = "u4") := by decide
  norm_num [fiveUrlRun, fiveUrls, processStream, streamLoop,
    processBatch, processSingle, batchTask, streamTask, freshHandler,
    fetchFailSecond, CacheManager.get, CacheManager.set,
    CacheManager.live, RateLimiter.wait_time_until_next_request,
    RateLimiter.add_request, updateStats, zeroCacheStats, freshStats,
    List.find?, List.filter, bne,
    sbu1u2, spu1u2, sbu1u3, spu1u3, sbu1u4, spu1u4, sbu1u5, spu1u5, sbu2u1, spu2u1, sbu2u3, spu2u3, sbu2u4, spu2u4, sbu2u5, spu2u5, sbu3u1, spu3u1, sbu3u2, spu3u2, sbu3u4, spu3u4, sbu3u5, spu3u5, sbu4u1, spu4u1, sbu4u2, spu4u2, sbu4u3, spu4u3, sbu4u5, spu4u5, sbu5u1, spu5u1, sbu5u2, spu5u2, sbu5u3, spu5u3, sbu5u4, spu5u4]

end Linkedin
